import Mathlib

/-!
Verification of the temporal-typescript-demo-app repository.

This file shallowly embeds the string-manipulating and control-flow logic of
the repository (a Temporal "Hello World" demo instrumented with OpenTelemetry)
and proves or refutes the specification claims about it.

Conventions:
* JavaScript strings are modelled as Lean `String` or `List Char`.
* `str.trim()` is modelled by `jsTrim` (drop leading and trailing whitespace),
  `str.split(sep)` for a one-character separator by `splitOnChar`,
  `s || default` on environment strings by `jsOrDefault` (the empty string is
  falsy in JavaScript).
* Control flow with side effects (span `end()` calls, `process.exit` calls,
  shutdown state) is modelled by pure functions from the booleans that decide
  the path taken to the list of emitted events or to the successor state.
-/

namespace TemporalDemo

/-- JavaScript-style whitespace test used by `String.prototype.trim` on the
ASCII inputs occurring in this repository. -/
def wsChar (c : Char) : Bool := c.isWhitespace

/-- Model of `str.trim()`: drop the maximal whitespace prefix and suffix of
the character list. -/
def jsTrimL (l : List Char) : List Char :=
  ((l.dropWhile wsChar).reverse.dropWhile wsChar).reverse

/-- Model of `str.trim()` on `String`. -/
def jsTrim (s : String) : String := ⟨jsTrimL s.data⟩

/-- Model of `str.split(sep)` for a one-character separator `sep`, as used by
`extractKeyValues` and `getOtelHeaders` (`split(',')`, `split('=')`).
Matches JavaScript: the empty string splits to `[""]`, separators at the ends
produce empty segments. -/
def splitOnChar (sep : Char) : List Char → List (List Char)
  | [] => [[]]
  | c :: rest =>
    let r := splitOnChar sep rest
    if c = sep then [] :: r
    else
      match r with
      | [] => [[c]]
      | h :: t => (c :: h) :: t

/-- Model of `env.VAR || fallback`: the fallback is used when the variable is
unset or set to the empty string (which is falsy in JavaScript). -/
def jsOrDefault (env : Option String) (d : String) : String :=
  match env with
  | none => d
  | some v => if v = "" then d else v

/-- Model of `name.trim().charAt(0).toUpperCase() +
name.trim().slice(1).toLowerCase()` from `formatName`
(src/src/activities/interfaces/greetingActivities.ts lines 57-61 and
src/unnamed/part_002 `GreetingActivitiesImpl.formatName`):
`charAt(0)` of the empty string is the empty string, `slice(1)` drops the
first character. -/
def formatName (name : String) : String :=
  match jsTrimL name.data with
  | [] => ""
  | c :: rest => ⟨c.toUpper :: rest.map Char.toLower⟩

/-- Model of the JavaScript object update `result[key] = value` on an
association list: overwrite the binding in place when the key is present,
append it otherwise.  JavaScript objects with string keys behave exactly like
this (insertion order preserved, assignment overwrites). -/
def objInsert (k v : List Char) : List (List Char × List Char) → List (List Char × List Char)
  | [] => [(k, v)]
  | (k₀, v₀) :: rest =>
    if k₀ = k then (k₀, v) :: rest else (k₀, v₀) :: objInsert k v rest

/-- Model of reading `result[key]` from the association list. -/
def objLookup (k : List Char) : List (List Char × List Char) → Option (List Char)
  | [] => none
  | (k₀, v₀) :: rest => if k₀ = k then some v₀ else objLookup k rest

/-- The keys of the modelled JavaScript object, in insertion order. -/
def objKeys (m : List (List Char × List Char)) : List (List Char) :=
  m.map Prod.fst

/-- One step of the loop body of `extractKeyValues`
(src/src/instrumentation.ts lines 68-79) and of the `forEach` body of
`getOtelHeaders` (src/unnamed/part_004 lines 79-98): destructure
`const [key, value] = pair.split('=')`, and only when both `key` and `value`
are truthy (defined and non-empty) store `result[key.trim()] = value.trim()`. -/
def kvStep (acc : List (List Char × List Char)) (pair : List Char) :
    List (List Char × List Char) :=
  match splitOnChar '=' pair with
  | [] => acc
  | [_] => acc
  | key :: v :: _ =>
    if key ≠ [] ∧ v ≠ [] then objInsert (jsTrimL key) (jsTrimL v) acc else acc

/-- The common fold of both extraction functions over `str.split(',')`. -/
def kvFold (l : List Char) : List (List Char × List Char) :=
  (splitOnChar ',' l).foldl kvStep []

/-- Model of `extractKeyValues(str)` with the default separators
(src/src/instrumentation.ts lines 68-79): `if (!str) return {}`, then the
fold above. -/
def extractKeyValues (l : List Char) : List (List Char × List Char) :=
  if l = [] then [] else kvFold l

/-- Model of `getOtelHeaders()` (src/unnamed/part_004 lines 79-98): when the
`OTEL_EXPORTER_OTLP_HEADERS` environment variable is unset or empty the empty
object is returned, otherwise the same fold as `extractKeyValues` runs.  The
surrounding `try` never fires because every step is total. -/
def getOtelHeaders (headersEnv : Option (List Char)) : List (List Char × List Char) :=
  match headersEnv with
  | none => []
  | some l => if l = [] then [] else kvFold l

/-- A pair of the comma-separated list is well formed when `split('=')`
yields at least two segments (the pair contains an `=`) and neither the key
segment nor the first value segment is empty. -/
def wfPair (p : List Char) : Prop :=
  match splitOnChar '=' p with
  | key :: v :: _ => key ≠ [] ∧ v ≠ []
  | _ => False

instance (p : List Char) : Decidable (wfPair p) := by
  unfold wfPair
  match splitOnChar '=' p with
  | [] => exact inferInstanceAs (Decidable False)
  | [_] => exact inferInstanceAs (Decidable False)
  | key :: v :: _ => exact inferInstanceAs (Decidable (_ ∧ _))

/-- The trimmed key a well-formed pair contributes. -/
def pairKey (p : List Char) : List Char :=
  jsTrimL ((splitOnChar '=' p).headD [])

/-- The trimmed value a well-formed pair contributes: everything between the
first and the second `=` of the pair (the second destructured component). -/
def pairVal (p : List Char) : List Char :=
  jsTrimL (((splitOnChar '=' p).drop 1).headD [])

/-- The key/value bindings the specification expects: one binding per
well-formed pair of the comma-separated input, both components trimmed. -/
def wfBindings (l : List Char) : List (List Char × List Char) :=
  (splitOnChar ',' l).filterMap fun p =>
    if wfPair p then some (pairKey p, pairVal p) else none

/-- Folding a list of bindings into the modelled JavaScript object with
`objInsert`, first binding first. -/
def objInsertAll (acc : List (List Char × List Char)) (bs : List (List Char × List Char)) :
    List (List Char × List Char) :=
  bs.foldl (fun a b => objInsert b.1 b.2 a) acc

/-- Substring containment on the modelled strings: the character list of
`needle` is a contiguous infix of the character list of `hay`. -/
def strContains (hay needle : String) : Prop :=
  needle.data <:+: hay.data

/-- Model of the activity `sayHello` (src/src/activities.ts lines 4-9):
the template literal `Hello ${name}!`. -/
def sayHello (name : String) : String := "Hello " ++ name ++ "!"

/-- Model of the workflow `greetUser` (src/src/workflows.ts): it forwards the
name to the `sayHello` activity and returns its result unchanged. -/
def greetUser (name : String) : String := sayHello name

/-- Model of `GreetingActivitiesImpl.simpleTrimName` (src/unnamed/part_002):
return the trimmed name. -/
def simpleTrimName (name : String) : String := jsTrim name

/-- Model of `GreetingActivitiesImpl.simpleHello` (src/unnamed/part_002):
the template literal `Hello ${name}!`. -/
def simpleHello (name : String) : String := "Hello " ++ name ++ "!"

/-- The greeting phrases of `generateGreeting`
(src/src/activities/interfaces/greetingActivities.ts lines 72-84 and
src/unnamed/part_002). -/
def greetings : List String := ["Hello", "Hi", "Hey", "Greetings", "Welcome"]

/-- Model of `generateGreeting(formattedName)`: the random index produced by
`Math.floor(Math.random() * greetings.length)` is made an explicit parameter
`g : Fin 5`; the result is the template literal
`${randomGreeting}, ${formattedName}!`. -/
def generateGreeting (g : Fin 5) (formattedName : String) : String :=
  (greetings.get ⟨g.1, by simp [greetings]⟩) ++ ", " ++ formattedName ++ "!"

/-- Model of `addTimestamp(greeting)` (same files): the wall-clock ISO string
produced by `new Date().toISOString()` is made an explicit parameter `ts`;
the result is the template literal `[${ts}] ${greeting}`. -/
def addTimestamp (ts : String) (greeting : String) : String :=
  "[" ++ ts ++ "] " ++ greeting

/-- Model of `HelloWorldWorkflowImpl.sayHello` (src/unnamed/part_009 lines
26-31): `formatName`, then `generateGreeting`, then `addTimestamp`, with the
random greeting choice and the timestamp as explicit parameters. -/
def workflowSayHello (g : Fin 5) (ts : String) (name : String) : String :=
  addTimestamp ts (generateGreeting g (formatName name))

/-- The run outcomes relevant to the exit-code analysis of the starter and
client entry points: the run may succeed, the workflow execution may fail,
the connection to the Temporal server may fail, or OpenTelemetry
initialization may fail. -/
inductive RunOutcome where
  | success
  | workflowError
  | connectError
  | initError
  deriving DecidableEq

/-- Whether the promise returned by `run()` in
src/src/main/helloWorldStarter.ts rejects, per outcome.  Workflow failures
are caught by the inner `catch` (lines 140-153) and not rethrown; connection
failures are caught by the outer `catch` (lines 160-164) and not rethrown;
only an error thrown before the `try` (the `initOpenTelemetry` call on line
20) escapes `run()` and reaches the `.catch` handler on lines 181-184. -/
def starterRunRejects : RunOutcome → Bool
  | .initError => true
  | _ => false

/-- Whether the promise returned by `run()` in src/src/client.ts rejects, per
outcome.  The `catch` on line 252 swallows every error raised inside the
outer `try` (connection and workflow failures included, both rethrown up to
there by the inner handlers); only the initialization code before the `try`
(lines 20-70) can make `run()` reject and reach the `.catch` on lines
279-282. -/
def clientRunRejects : RunOutcome → Bool
  | .initError => true
  | _ => false

/-- The process exit code as a function of whether `run()` rejects: the
`.catch` handler calls `process.exit(1)`, otherwise the event loop drains and
the process exits with code 0. -/
def processExitCode (rejects : Bool) : Nat := if rejects then 1 else 0

/-- Exit code of the starter entry point per run outcome. -/
def starterExitCode (o : RunOutcome) : Nat := processExitCode (starterRunRejects o)

/-- Exit code of the client entry point per run outcome. -/
def clientExitCode (o : RunOutcome) : Nat := processExitCode (clientRunRejects o)

/-- Observable events of the span-lifecycle and shutdown models: `end()`
calls on the individual spans and `process.exit` calls. -/
inductive SpanEv where
  | endExecute
  | endRunWf
  | endMain
  | endParent
  | exitZero
  | exitOne
  deriving DecidableEq

/-- Span `end()` events emitted by the starter `run()`
(src/src/main/helloWorldStarter.ts lines 99-171).  When the connection fails
the two inner spans are never started; otherwise the inner `finally` (lines
154-158) ends `executeSpan` (`endExecute`) and
`startWorkflowHelloWorldSpan` (`endRunWf`) on both the success and the
workflow-error path, and the outer `finally` (lines 165-171) always ends
`startWorkflowSpan` (`endMain`). -/
def starterSpanEnds (connectError workflowError : Bool) : List SpanEv :=
  (if connectError then [] else
    (if workflowError then [] else []) ++ [SpanEv.endExecute, SpanEv.endRunWf])
  ++ [SpanEv.endMain]

/-- Span `end()` events emitted by the client `run()` (src/src/client.ts
lines 57-275): when the connection fails the `ExecuteWorkflow` span is never
started; otherwise the inner `finally` (lines 241-244) ends it (`endExecute`)
on both the success and the workflow-error path, and the outer `finally`
(lines 256-275) always ends the `StartWorkflow` span (`endMain`). -/
def clientSpanEnds (connectError workflowError : Bool) : List SpanEv :=
  (if connectError then [] else
    (if workflowError then [] else []) ++ [SpanEv.endExecute])
  ++ [SpanEv.endMain]

/-- Span `end()` events emitted by the instrumented worker `run()`
(third document of src/src/activities/interfaces/greetingActivities.ts,
claim lines 224-230): the inner `finally` always ends
`runWorkflowSpan` (`endRunWf`), but the outer `finally` ends
`executeWorkflowSpan` (`endExecute`) only under the guard
`if (!isShuttingDown)`.  The worker-error flag selects the catch path, which
rethrows and changes no `end()` call. -/
def instrumentedWorkerSpanEnds (workerError isShuttingDown : Bool) : List SpanEv :=
  (if workerError then [] else []) ++ [SpanEv.endRunWf]
  ++ (if isShuttingDown then [] else [SpanEv.endExecute])

/-- The exit paths of the metrics worker region (src/src/worker.ts lines
175-335): the `catch` path, the path where `worker.run()` returns and a
`SIGINT` later fires the shutdown handler, and the path where `worker.run()`
returns and no signal arrives. -/
inductive MWPath where
  | errored
  | sigintAfterRun
  | noSignal
  deriving DecidableEq

/-- Span `end()` and exit events emitted by the metrics worker per exit
path: the `catch`/`finally` (lines 309-333) ends both spans and exits 1; the
`SIGINT` handler (lines 275-308) ends both spans and exits 0; when
`worker.run()` resolves and no signal arrives, the region completes without
ending either span. -/
def metricsWorkerSpanEnds : MWPath → List SpanEv
  | .errored => [SpanEv.endExecute, SpanEv.endParent, SpanEv.exitOne]
  | .sigintAfterRun => [SpanEv.endExecute, SpanEv.endParent, SpanEv.exitZero]
  | .noSignal => []

/-- State observed by the shutdown handlers: the shutting-down flag, and
counters of `worker.shutdown()`, `forceSpanExport()` and `process.exit`
calls performed so far. -/
structure ShutState where
  isShuttingDown : Bool
  workerShutdownCalls : Nat
  exportCalls : Nat
  exitCalls : Nat
  deriving DecidableEq

/-- The initial process state: no shutdown in progress, no calls made. -/
def initialShutState : ShutState :=
  { isShuttingDown := false, workerShutdownCalls := 0, exportCalls := 0, exitCalls := 0 }

/-- Model of the guarded `shutdown` of the instrumented worker (third
document of src/src/activities/interfaces/greetingActivities.ts, claim lines
240-264): `if (isShuttingDown) return;` then set the flag, shut the worker
down, force the span export and call `process.exit` (code 0 on success, 1 on
an internal error; the model counts the call either way). -/
def guardedShutdown (s : ShutState) : ShutState :=
  if s.isShuttingDown then s
  else
    { isShuttingDown := true,
      workerShutdownCalls := s.workerShutdownCalls + 1,
      exportCalls := s.exportCalls + 1,
      exitCalls := s.exitCalls + 1 }

/-- Model of the unguarded `shutdown` closure of src/src/worker.ts lines
91-99: no flag is consulted or set; every invocation shuts the worker down,
ends the span, forces the span export and calls `process.exit(0)`. -/
def unguardedShutdown (s : ShutState) : ShutState :=
  { isShuttingDown := s.isShuttingDown,
    workerShutdownCalls := s.workerShutdownCalls + 1,
    exportCalls := s.exportCalls + 1,
    exitCalls := s.exitCalls + 1 }

/-- Result of the modelled `Promise.race` inside `forceSpanExport`: the
number of milliseconds after which the returned promise resolves, and the
boolean it resolves with. -/
structure RaceResult where
  timeMs : Nat
  value : Bool
  deriving DecidableEq

/-- Model of `Promise.race([shutdownPromise, timeoutPromise])` with a timeout
of `timeoutMs`: the SDK shutdown settles after `shutdownTime` milliseconds
(`none` when it never settles) and fulfills iff `shutdownOk`; the `.then`
branch maps fulfillment to `true`, the `.catch` branch maps rejection to
`false`, and the timeout callback resolves `false` after `timeoutMs`.  The
race takes whichever settles strictly first; the timeout wins ties, as the
timer was registered first. -/
def raceShutdownTimeout (timeoutMs : Nat) (shutdownTime : Option Nat)
    (shutdownOk : Bool) : RaceResult :=
  match shutdownTime with
  | none => ⟨timeoutMs, false⟩
  | some t => if t < timeoutMs then ⟨t, shutdownOk⟩ else ⟨timeoutMs, false⟩

/-- Model of `forceSpanExport` from the first document of
src/src/config/signozTelemetryUtils.ts (lines 116-147): `if (!sdkInstance)
return false;` immediately, otherwise race the SDK shutdown against a 5000 ms
timeout. -/
def forceSpanExportUtils (sdkPresent : Bool) (shutdownTime : Option Nat)
    (shutdownOk : Bool) : RaceResult :=
  if sdkPresent then raceShutdownTimeout 5000 shutdownTime shutdownOk
  else ⟨0, false⟩

/-- Model of `forceSpanExport` from the second document of
src/src/config/signozTelemetryUtils.ts (lines 234-261): identical shape with
a 3000 ms timeout. -/
def forceSpanExportSignoz (sdkPresent : Bool) (shutdownTime : Option Nat)
    (shutdownOk : Bool) : RaceResult :=
  if sdkPresent then raceShutdownTimeout 3000 shutdownTime shutdownOk
  else ⟨0, false⟩

/-- Endpoint chosen by the first document of src/src/instrumentation.ts
(line 10): `process.env.OTEL_EXPORTER_OTLP_ENDPOINT || 'http://127.0.0.1:4317'`. -/
def instrumentationLocalEndpoint (env : Option String) : String :=
  jsOrDefault env "http://127.0.0.1:4317"

/-- Endpoint chosen by the SigNoz-cloud document of
src/src/instrumentation.ts (claim lines 60-66):
`process.env.OTEL_EXPORTER_OTLP_ENDPOINT || 'https://ingest.in.signoz.cloud:443'`. -/
def instrumentationSignozEndpoint (env : Option String) : String :=
  jsOrDefault env "https://ingest.in.signoz.cloud:443"

/-- Endpoint chosen by `getTracingExporter` (src/unnamed/part_004 lines
23-26) and likewise by src/src/config/metricsExporter.ts line 23,
src/src/config/opentelemetryConfig.ts lines 105 and 157 and
src/unnamed/part_003 line 20:
`process.env.OTEL_EXPORTER_OTLP_ENDPOINT || 'http://localhost:4317'`. -/
def tracingExporterEndpoint (env : Option String) : String :=
  jsOrDefault env "http://localhost:4317"

/-- The documented local loopback collector addresses of this repository
(README and start scripts use `http://localhost:4317`; one instrumentation
variant spells it `http://127.0.0.1:4317`). -/
def isLocalLoopbackEndpoint (s : String) : Bool :=
  s = "http://localhost:4317" || s = "http://127.0.0.1:4317"

end TemporalDemo

namespace TemporalDemo

/-- Every entry of the object after an insertion is an old entry or the
inserted binding. -/
theorem objInsert_mem {k v : List Char} {acc : List (List Char × List Char)}
    {p : List Char × List Char} (h : p ∈ objInsert k v acc) :
    p ∈ acc ∨ p = (k, v) := by
  induction acc with
  | nil =>
    simp only [objInsert, List.mem_singleton] at h
    exact Or.inr h
  | cons b rest ih =>
    obtain ⟨k₀, v₀⟩ := b
    by_cases hk : k₀ = k
    · have hred : objInsert k v ((k₀, v₀) :: rest) = (k₀, v) :: rest := by
        simp [objInsert, hk]
      rw [hred] at h
      cases List.mem_cons.mp h with
      | inl h =>
        rw [hk] at h
        exact Or.inr h
      | inr h => exact Or.inl (List.mem_cons_of_mem _ h)
    · simp only [objInsert, if_neg hk, List.mem_cons] at h
      cases h with
      | inl h => exact Or.inl (h ▸ List.mem_cons_self _ _)
      | inr h =>
        cases ih h with
        | inl h => exact Or.inl (List.mem_cons_of_mem _ h)
        | inr h => exact Or.inr h

/-- Looking up the key just inserted returns the inserted value. -/
theorem objLookup_objInsert_self (k v : List Char) (acc : List (List Char × List Char)) :
    objLookup k (objInsert k v acc) = some v := by
  induction acc with
  | nil => simp [objInsert, objLookup]
  | cons b rest ih =>
    obtain ⟨k₀, v₀⟩ := b
    by_cases hk : k₀ = k
    · simp [objInsert, objLookup, hk]
    · simp [objInsert, objLookup, hk, ih]

/-- Inserting under a different key leaves a lookup unchanged. -/
theorem objLookup_objInsert_ne {k k' : List Char} (hne : k' ≠ k)
    (v : List Char) (acc : List (List Char × List Char)) :
    objLookup k' (objInsert k v acc) = objLookup k' acc := by
  have hne' : ¬ k = k' := fun he => hne he.symm
  induction acc with
  | nil => simp [objInsert, objLookup, hne']
  | cons b rest ih =>
    obtain ⟨k₀, v₀⟩ := b
    by_cases hk : k₀ = k
    · subst hk
      simp [objInsert, objLookup, hne']
    · simp [objInsert, objLookup, hk, ih]

/-- The inserted key is among the keys after an insertion. -/
theorem mem_objKeys_objInsert (k v : List Char) (acc : List (List Char × List Char)) :
    k ∈ objKeys (objInsert k v acc) := by
  induction acc with
  | nil => simp [objInsert, objKeys]
  | cons b rest ih =>
    obtain ⟨k₀, v₀⟩ := b
    by_cases hk : k₀ = k
    · simp [objInsert, objKeys, hk]
    · simp only [objInsert, if_neg hk, objKeys, List.map_cons, List.mem_cons]
      exact Or.inr ih

/-- Insertion never removes a key. -/
theorem objKeys_objInsert_mono {k' : List Char} (k v : List Char)
    {acc : List (List Char × List Char)} (h : k' ∈ objKeys acc) :
    k' ∈ objKeys (objInsert k v acc) := by
  induction acc with
  | nil => simp [objKeys] at h
  | cons b rest ih =>
    obtain ⟨k₀, v₀⟩ := b
    simp only [objKeys, List.map_cons, List.mem_cons] at h
    by_cases hk : k₀ = k
    · subst hk
      have hred : objInsert k₀ v ((k₀, v₀) :: rest) = (k₀, v) :: rest := by
        simp [objInsert]
      rw [hred]
      simp only [objKeys, List.map_cons, List.mem_cons]
      exact h
    · simp only [objInsert, if_neg hk, objKeys, List.map_cons, List.mem_cons]
      cases h with
      | inl h => exact Or.inl h
      | inr h => exact Or.inr (ih h)

/-- Folding bindings in never removes a key. -/
theorem objKeys_objInsertAll_mono {k : List Char}
    {acc : List (List Char × List Char)} (bs : List (List Char × List Char))
    (h : k ∈ objKeys acc) : k ∈ objKeys (objInsertAll acc bs) := by
  induction bs generalizing acc with
  | nil => exact h
  | cons b rest ih => exact ih (objKeys_objInsert_mono b.1 b.2 h)

/-- The key of every folded-in binding ends up among the object keys. -/
theorem mem_objKeys_objInsertAll {k v : List Char}
    {bs : List (List Char × List Char)} (acc : List (List Char × List Char))
    (h : (k, v) ∈ bs) : k ∈ objKeys (objInsertAll acc bs) := by
  induction bs generalizing acc with
  | nil => cases h
  | cons b rest ih =>
    rcases List.mem_cons.mp h with h | h
    · subst h
      exact objKeys_objInsertAll_mono rest (mem_objKeys_objInsert k v acc)
    · exact ih _ h

/-- Every entry of the folded object is an initial entry or one of the
folded-in bindings. -/
theorem objInsertAll_mem {p : List Char × List Char}
    {bs : List (List Char × List Char)} {acc : List (List Char × List Char)}
    (h : p ∈ objInsertAll acc bs) : p ∈ acc ∨ p ∈ bs := by
  induction bs generalizing acc with
  | nil => exact Or.inl h
  | cons b rest ih =>
    rcases ih h with h | h
    · rcases objInsert_mem h with h | h
      · exact Or.inl h
      · exact Or.inr (h ▸ List.mem_cons_self _ _)
    · exact Or.inr (List.mem_cons_of_mem _ h)

/-- Folding in bindings whose keys all differ from `k` leaves the lookup of
`k` unchanged. -/
theorem objLookup_objInsertAll_of_not_mem {k : List Char}
    {bs : List (List Char × List Char)} (acc : List (List Char × List Char))
    (h : ∀ b ∈ bs, b.1 ≠ k) :
    objLookup k (objInsertAll acc bs) = objLookup k acc := by
  induction bs generalizing acc with
  | nil => rfl
  | cons b rest ih =>
    have hb : b.1 ≠ k := h b (List.mem_cons_self _ _)
    calc objLookup k (objInsertAll (objInsert b.1 b.2 acc) rest)
        = objLookup k (objInsert b.1 b.2 acc) :=
          ih _ fun b' hb' => h b' (List.mem_cons_of_mem _ hb')
      _ = objLookup k acc := objLookup_objInsert_ne (fun he => hb he.symm) _ _

/-- With pairwise distinct binding keys, folding the bindings in binds each
key to its value. -/
theorem objLookup_objInsertAll_nodup {k v : List Char}
    {bs : List (List Char × List Char)} (acc : List (List Char × List Char))
    (hnd : (bs.map Prod.fst).Nodup) (h : (k, v) ∈ bs) :
    objLookup k (objInsertAll acc bs) = some v := by
  induction bs generalizing acc with
  | nil => cases h
  | cons b rest ih =>
    simp only [List.map_cons, List.nodup_cons] at hnd
    rcases List.mem_cons.mp h with h | h
    · subst h
      have hrest : ∀ b' ∈ rest, b'.1 ≠ k := by
        intro b' hb' he
        have hm : b'.1 ∈ List.map Prod.fst rest := List.mem_map_of_mem Prod.fst hb'
        rw [he] at hm
        exact hnd.1 hm
      calc objLookup k (objInsertAll (objInsert k v acc) rest)
          = objLookup k (objInsert k v acc) :=
            objLookup_objInsertAll_of_not_mem _ hrest
        _ = some v := objLookup_objInsert_self k v acc
    · exact ih _ hnd.2 h

/-- A loop step of the extraction stores the trimmed binding exactly when the
pair is well formed. -/
theorem kvStep_eq (acc : List (List Char × List Char)) (q : List Char) :
    kvStep acc q =
      if wfPair q then objInsert (pairKey q) (pairVal q) acc else acc := by
  rcases hs : splitOnChar '=' q with _ | ⟨key, _ | ⟨v, rest⟩⟩
  · have hw : ¬ wfPair q := by
      unfold wfPair
      rw [hs]
      exact not_false
    rw [if_neg hw]
    simp only [kvStep, hs]
  · have hw : ¬ wfPair q := by
      unfold wfPair
      rw [hs]
      exact not_false
    rw [if_neg hw]
    simp only [kvStep, hs]
  · by_cases hkv : key ≠ [] ∧ v ≠ []
    · have hw : wfPair q := by
        unfold wfPair
        rw [hs]
        exact hkv
      rw [if_pos hw]
      unfold pairKey pairVal
      rw [hs]
      simp only [kvStep, hs]
      rw [if_pos hkv]
      rfl
    · have hw : ¬ wfPair q := by
        unfold wfPair
        rw [hs]
        exact hkv
      rw [if_neg hw]
      simp only [kvStep, hs]
      rw [if_neg hkv]

/-- The extraction fold is the object fold of the well-formed bindings. -/
theorem foldl_kvStep_eq (ps : List (List Char)) (acc : List (List Char × List Char)) :
    ps.foldl kvStep acc =
      objInsertAll acc (ps.filterMap fun p =>
        if wfPair p then some (pairKey p, pairVal p) else none) := by
  induction ps generalizing acc with
  | nil => rfl
  | cons q rest ih =>
    by_cases hq : wfPair q
    · simp only [List.foldl_cons, List.filterMap_cons, if_pos hq, kvStep_eq]
      exact ih _
    · simp only [List.foldl_cons, List.filterMap_cons, if_neg hq, kvStep_eq]
      exact ih _

/-- The empty input has no well-formed pair. -/
theorem wfBindings_nil : wfBindings [] = [] := by decide

/-- `extractKeyValues` is the object fold of the well-formed bindings of the
input. -/
theorem extractKeyValues_eq_objInsertAll (l : List Char) :
    extractKeyValues l = objInsertAll [] (wfBindings l) := by
  by_cases hl : l = []
  · subst hl
    rw [wfBindings_nil]
    rfl
  · unfold extractKeyValues kvFold wfBindings
    rw [if_neg hl]
    exact foldl_kvStep_eq _ _

/-- C1: on every input string the key-value extraction used for resource
attributes and OTLP headers (1) produces only bindings that stem from a
well-formed `key=value` pair, with key and value trimmed — malformed pairs
(no `=`, empty key segment, empty value segment) contribute nothing; (2)
contains the trimmed key of every well-formed pair; (3) when the trimmed
keys of the well-formed pairs are pairwise distinct, binds each such key to
the trimmed value of its pair; and (4) the header parser `getOtelHeaders`
computes the same mapping on a set environment variable.  Both functions are
total Lean functions, so no error is raised on any input. -/
theorem extractKeyValues_wellformed (l : List Char) :
    (∀ p ∈ extractKeyValues l,
        ∃ q ∈ splitOnChar ',' l, wfPair q ∧ p = (pairKey q, pairVal q))
    ∧ (∀ q ∈ splitOnChar ',' l, wfPair q →
        pairKey q ∈ objKeys (extractKeyValues l))
    ∧ (((wfBindings l).map Prod.fst).Nodup →
        ∀ q ∈ splitOnChar ',' l, wfPair q →
          objLookup (pairKey q) (extractKeyValues l) = some (pairVal q))
    ∧ getOtelHeaders (some l) = extractKeyValues l := by
  have he := extractKeyValues_eq_objInsertAll l
  refine ⟨?_, ?_, ?_, rfl⟩
  · intro p hp
    rw [he] at hp
    cases objInsertAll_mem hp with
    | inl h => cases h
    | inr h =>
      obtain ⟨q, hq, hqe⟩ := List.mem_filterMap.mp h
      by_cases hw : wfPair q
      · rw [if_pos hw] at hqe
        exact ⟨q, hq, hw, (Option.some_inj.mp hqe).symm⟩
      · rw [if_neg hw] at hqe
        cases hqe
  · intro q hq hw
    have hb : (pairKey q, pairVal q) ∈ wfBindings l :=
      List.mem_filterMap.mpr ⟨q, hq, by rw [if_pos hw]⟩
    rw [he]
    exact mem_objKeys_objInsertAll _ hb
  · intro hnd q hq hw
    have hb : (pairKey q, pairVal q) ∈ wfBindings l :=
      List.mem_filterMap.mpr ⟨q, hq, by rw [if_pos hw]⟩
    rw [he]
    exact objLookup_objInsertAll_nodup _ hnd hb

/-- Witness for C1 on the concrete attribute string
`" service.name = temporal-hello-world ,bad, x=1 "`: the well-formed pairs
have distinct keys, the malformed pair `bad` is dropped, and the key
`service.name` is bound to the trimmed value. -/
theorem extractKeyValues_wellformed_witness :
    objLookup (pairKey " service.name = temporal-hello-world ".data)
        (extractKeyValues " service.name = temporal-hello-world ,bad, x=1 ".data)
      = some (pairVal " service.name = temporal-hello-world ".data) :=
  (extractKeyValues_wellformed " service.name = temporal-hello-world ,bad, x=1 ".data).2.2.1
    (by decide) " service.name = temporal-hello-world ".data (by decide) (by decide)

/-- Splitting a list free of the separator yields the single segment. -/
theorem splitOnChar_of_not_mem {sep : Char} {xs : List Char} (h : sep ∉ xs) :
    splitOnChar sep xs = [xs] := by
  induction xs with
  | nil => rfl
  | cons c rest ih =>
    have hc : ¬ c = sep := fun he => h (he ▸ List.mem_cons_self _ _)
    have hrest : sep ∉ rest := fun hm => h (List.mem_cons_of_mem _ hm)
    simp only [splitOnChar, if_neg hc, ih hrest]

/-- Splitting past the first separator occurrence: the segment before it,
then the split of the remainder. -/
theorem splitOnChar_append {sep : Char} {xs : List Char} (ys : List Char)
    (h : sep ∉ xs) :
    splitOnChar sep (xs ++ sep :: ys) = xs :: splitOnChar sep ys := by
  induction xs with
  | nil => simp [splitOnChar]
  | cons c rest ih =>
    have hc : ¬ c = sep := fun he => h (he ▸ List.mem_cons_self _ _)
    have hrest : sep ∉ rest := fun hm => h (List.mem_cons_of_mem _ hm)
    simp only [List.cons_append, splitOnChar, if_neg hc, List.append_eq]
    rw [ih hrest]

/-- A character that survives `dropWhile` membership-wise: any element not
satisfying the predicate stays in the list. -/
theorem mem_dropWhile_of_not {c : Char} {p : Char → Bool} {l : List Char}
    (h : c ∈ l) (hc : p c = false) : c ∈ l.dropWhile p := by
  induction l with
  | nil => cases h
  | cons a rest ih =>
    by_cases ha : p a
    · rw [List.dropWhile_cons_of_pos ha]
      cases List.mem_cons.mp h with
      | inl he => exact absurd (he ▸ ha) (by simp [hc])
      | inr hm => exact ih hm
    · rw [List.dropWhile_cons_of_neg ha]
      exact h

/-- Trimming removes no occurrence of a non-whitespace character. -/
theorem mem_jsTrimL_of_not_ws {c : Char} {l : List Char}
    (h : c ∈ l) (hc : wsChar c = false) : c ∈ jsTrimL l := by
  unfold jsTrimL
  rw [List.mem_reverse]
  apply mem_dropWhile_of_not _ hc
  rw [List.mem_reverse]
  exact mem_dropWhile_of_not h hc

/-- Trimming introduces no character. -/
theorem mem_of_mem_jsTrimL {c : Char} {l : List Char} (h : c ∈ jsTrimL l) :
    c ∈ l := by
  unfold jsTrimL at h
  rw [List.mem_reverse] at h
  have h1 := (List.dropWhile_sublist wsChar).mem h
  rw [List.mem_reverse] at h1
  exact (List.dropWhile_sublist wsChar).mem h1

/-- C9: a `key=value` pair whose value itself contains `=` (for example an
ingestion token `token=abc=def`) is parsed by keeping only the text between
the first and the second `=` as the value: the resulting mapping binds the
trimmed key to the trimmed first value segment alone, and the full trimmed
remainder after the first `=` is never the stored value (it still contains
the `=` that the stored value cannot contain). -/
theorem extractKeyValues_embedded_separator (key v1 v2 : List Char)
    (hknil : key ≠ []) (hvnil : v1 ≠ [])
    (hkeq : '=' ∉ key) (hveq : '=' ∉ v1)
    (hkc : ',' ∉ key) (hv1c : ',' ∉ v1) (hv2c : ',' ∉ v2) :
    extractKeyValues (key ++ ('=' :: (v1 ++ ('=' :: v2))))
        = [(jsTrimL key, jsTrimL v1)]
    ∧ jsTrimL v1 ≠ jsTrimL (v1 ++ '=' :: v2) := by
  constructor
  · have hpair : (key ++ ('=' :: (v1 ++ ('=' :: v2)))) ≠ [] := by
      cases key with
      | nil => exact absurd rfl hknil
      | cons a r => simp
    have hnc : ',' ∉ key ++ ('=' :: (v1 ++ ('=' :: v2))) := by
      intro hm
      rcases List.mem_append.mp hm with hm | hm
      · exact hkc hm
      · rcases List.mem_cons.mp hm with hm | hm
        · cases hm
        · rcases List.mem_append.mp hm with hm | hm
          · exact hv1c hm
          · rcases List.mem_cons.mp hm with hm | hm
            · cases hm
            · exact hv2c hm
    have hsplit1 : splitOnChar ',' (key ++ ('=' :: (v1 ++ ('=' :: v2))))
        = [key ++ ('=' :: (v1 ++ ('=' :: v2)))] := splitOnChar_of_not_mem hnc
    have hsplit2 : splitOnChar '=' (key ++ ('=' :: (v1 ++ ('=' :: v2))))
        = key :: v1 :: splitOnChar '=' v2 := by
      rw [splitOnChar_append (v1 ++ '=' :: v2) hkeq, splitOnChar_append v2 hveq]
    unfold extractKeyValues kvFold
    rw [if_neg hpair, hsplit1, List.foldl_cons, List.foldl_nil]
    unfold kvStep
    rw [hsplit2]
    simp only [if_pos (And.intro hknil hvnil)]
    rfl
  · intro he
    have hmem : '=' ∈ jsTrimL (v1 ++ '=' :: v2) :=
      mem_jsTrimL_of_not_ws
        (List.mem_append.mpr (Or.inr (List.mem_cons_self _ _))) (by decide)
    rw [← he] at hmem
    exact hveq (mem_of_mem_jsTrimL hmem)

/-- Witness for C9 at the concrete header pair `signoz-ingestion-key` style
input `token=abc=def`: the stored value is `abc`, not `abc=def`. -/
theorem extractKeyValues_embedded_separator_witness :
    extractKeyValues "token=abc=def".data
        = [("token".data, "abc".data)]
    ∧ jsTrimL "abc".data ≠ jsTrimL ("abc".data ++ '=' :: "def".data) := by
  have h := extractKeyValues_embedded_separator "token".data "abc".data "def".data
    (by decide) (by decide) (by decide) (by decide) (by decide) (by decide) (by decide)
  exact h

/-- C8: in the capitalize variant, `formatName "  bob  "` trims the input,
uppercases the first character and lowercases the rest, returning exactly
`"Bob"`. -/
theorem formatName_bob : formatName "  bob  " = "Bob" := by decide

/-- C10: `formatName` is total, and on every input consisting only of
whitespace characters (the empty string included) it returns the empty
string: the trimmed string is empty, `charAt(0)` of the empty string is the
empty string, and so is `slice(1)`, hence no error is raised. -/
theorem formatName_whitespace (s : String) (h : ∀ c ∈ s.data, wsChar c = true) :
    formatName s = "" := by
  have hdrop : s.data.dropWhile wsChar = [] :=
    List.dropWhile_eq_nil_iff.mpr h
  unfold formatName jsTrimL
  rw [hdrop]
  rfl

/-- Witness for C10 at the concrete whitespace input `"  "`. -/
theorem formatName_whitespace_witness : formatName "  " = "" :=
  formatName_whitespace "  " (by decide)

/-- An infix of a list is an infix of any left-extension of that list. -/
theorem isInfix_append_left {α : Type} (l₁ : List α) {l l₂ : List α}
    (h : l <:+: l₂) : l <:+: l₁ ++ l₂ := by
  obtain ⟨s, t, hst⟩ := h
  exact ⟨l₁ ++ s, t, by rw [← hst]; simp⟩

/-- C2 (amended): for the input `"temporal"`, the trim-and-prefix variants
return exactly `"Hello temporal!"`, and the
capitalize-plus-random-greeting-plus-timestamp workflow output contains the
formatted name `"Temporal"` for every choice of the random greeting and the
timestamp; it contains `"Hello"` when the random greeting chosen is
`"Hello"` (index 0), but not for every choice (see the counterexample). -/
theorem greeting_variants (g : Fin 5) (ts : String) :
    sayHello "temporal" = "Hello temporal!"
    ∧ simpleHello (simpleTrimName "temporal") = "Hello temporal!"
    ∧ greetUser "temporal" = "Hello temporal!"
    ∧ strContains (workflowSayHello g ts "temporal") "Temporal"
    ∧ (g = 0 → strContains (workflowSayHello g ts "temporal") "Hello") := by
  have hf : formatName "temporal" = "Temporal" := by decide
  refine ⟨by decide, by decide, by decide, ?_, ?_⟩
  · show "Temporal".data <:+:
      (addTimestamp ts (generateGreeting g (formatName "temporal"))).data
    rw [hf]
    unfold addTimestamp
    rw [String.data_append]
    exact isInfix_append_left _ (by fin_cases g <;> decide)
  · intro hg
    subst hg
    show "Hello".data <:+:
      (addTimestamp ts (generateGreeting 0 (formatName "temporal"))).data
    rw [hf]
    unfold addTimestamp
    rw [String.data_append]
    exact isInfix_append_left _ (by decide)

/-- Witness for C2 at greeting index 0 and a concrete timestamp. -/
theorem greeting_variants_witness :
    strContains (workflowSayHello 0 "2025-01-01T00:00:00.000Z" "temporal") "Hello" :=
  (greeting_variants 0 "2025-01-01T00:00:00.000Z").2.2.2.2 rfl

/-- Counterexample for C2 as stated: when the random greeting chosen is
`"Hi"` (index 1), the workflow output is
`"[2025-01-01T00:00:00.000Z] Hi, Temporal!"`, which does not contain the
substring `"Hello"`; so the output does not contain `"Hello"` for every
choice of the random greeting. -/
theorem greeting_variants_counterexample :
    workflowSayHello 1 "2025-01-01T00:00:00.000Z" "temporal"
        = "[2025-01-01T00:00:00.000Z] Hi, Temporal!"
    ∧ ¬ strContains (workflowSayHello 1 "2025-01-01T00:00:00.000Z" "temporal") "Hello" := by
  constructor
  · decide
  · show ¬ ("Hello".data <:+: _)
    decide

/-- C3 (amended): the starter and client entry points exit with code 0 on
clean completion, and with code 1 exactly when an error escapes `run()`
(OpenTelemetry initialization failure, thrown before the `try` blocks);
workflow-execution failures and Temporal-server connection failures are
caught and logged inside `run()` without rethrowing, so the process still
exits with code 0 after flushing telemetry. -/
theorem exit_codes_characterized :
    starterExitCode .success = 0 ∧ clientExitCode .success = 0
    ∧ starterExitCode .initError = 1 ∧ clientExitCode .initError = 1
    ∧ starterExitCode .workflowError = 0 ∧ clientExitCode .workflowError = 0
    ∧ starterExitCode .connectError = 0 ∧ clientExitCode .connectError = 0 := by
  decide

/-- Counterexample for C3 as stated: a failed workflow execution in the
starter (and in the client) results in exit code 0, not 1 — the inner
`catch` records the failure on spans and metrics but does not rethrow, so
`run()` resolves and the `.catch` handler that would call `process.exit(1)`
never fires. -/
theorem exit_codes_counterexample :
    starterExitCode .workflowError = 0 ∧ clientExitCode .workflowError = 0
    ∧ starterExitCode .workflowError ≠ 1 := by
  decide

/-- C4 (amended): in the starter and in the client every started span is
ended exactly once on every exit path (the main span always, the inner spans
whenever they were started, workflow failure included); in the instrumented
worker the
`RunWorkflow` span is always ended exactly once but the `ExecuteWorkflow`
span is ended only when shutdown is not in progress (the `finally` guard
`if (!isShuttingDown)` skips it otherwise); in the metrics worker the spans
are ended exactly once on the error path and on the SIGINT path, and not at
all when `worker.run()` resolves without a signal. -/
theorem span_end_discipline (ce we wi : Bool) (p : MWPath) :
    (starterSpanEnds ce we).count SpanEv.endMain = 1
    ∧ (ce = false → (starterSpanEnds ce we).count SpanEv.endExecute = 1
        ∧ (starterSpanEnds ce we).count SpanEv.endRunWf = 1)
    ∧ (clientSpanEnds ce we).count SpanEv.endMain = 1
    ∧ (ce = false → (clientSpanEnds ce we).count SpanEv.endExecute = 1)
    ∧ (instrumentedWorkerSpanEnds wi false).count SpanEv.endRunWf = 1
    ∧ (instrumentedWorkerSpanEnds wi true).count SpanEv.endRunWf = 1
    ∧ (instrumentedWorkerSpanEnds wi false).count SpanEv.endExecute = 1
    ∧ (instrumentedWorkerSpanEnds wi true).count SpanEv.endExecute = 0
    ∧ (metricsWorkerSpanEnds p).count SpanEv.endExecute
        = (if p = .noSignal then 0 else 1)
    ∧ (metricsWorkerSpanEnds p).count SpanEv.endParent
        = (if p = .noSignal then 0 else 1) := by
  cases ce <;> cases we <;> cases wi <;> cases p <;> decide

/-- Witness for C4 discharging the no-connection-error hypothesis at a
concrete path. -/
theorem span_end_discipline_witness :
    (starterSpanEnds false true).count SpanEv.endExecute = 1 :=
  ((span_end_discipline false true false .noSignal).2.1 rfl).1

/-- Counterexample for C4 as stated: two exit paths on which a started span
is never ended — the instrumented worker with shutdown in progress never
ends its `ExecuteWorkflow` span, and the metrics worker whose `worker.run()`
resolves without a signal ends neither span. -/
theorem span_end_counterexample :
    (instrumentedWorkerSpanEnds false true).count SpanEv.endExecute = 0
    ∧ (metricsWorkerSpanEnds .noSignal).count SpanEv.endExecute = 0
    ∧ (metricsWorkerSpanEnds .noSignal).count SpanEv.endParent = 0 := by
  decide

/-- C5 (amended): the guarded shutdown of the instrumented worker is
idempotent — a second invocation observes the already-set shutting-down flag
and returns without shutting the worker down again, exporting again or
calling `process.exit` again; the unguarded shutdown closure of the plain
worker has no such flag, and every invocation performs one more
`process.exit` call. -/
theorem shutdown_idempotence (s : ShutState) :
    guardedShutdown (guardedShutdown s) = guardedShutdown s
    ∧ (s.isShuttingDown = true → guardedShutdown s = s)
    ∧ (guardedShutdown s).isShuttingDown = true
    ∧ (unguardedShutdown s).exitCalls = s.exitCalls + 1 := by
  by_cases hs : s.isShuttingDown
  · refine ⟨?_, ?_, ?_, rfl⟩ <;> simp [guardedShutdown, hs]
  · refine ⟨?_, ?_, ?_, rfl⟩ <;> simp [guardedShutdown, hs]

/-- Witness for C5 on the concrete state with the flag already set. -/
theorem shutdown_idempotence_witness :
    guardedShutdown
        { isShuttingDown := true, workerShutdownCalls := 1, exportCalls := 1, exitCalls := 1 }
      = { isShuttingDown := true, workerShutdownCalls := 1, exportCalls := 1, exitCalls := 1 } :=
  (shutdown_idempotence _).2.1 rfl

/-- Counterexample for C5 as stated: invoking the unguarded worker shutdown
(src/src/worker.ts lines 91-102, which consults no flag) twice in succession
from the initial state performs two `process.exit` calls and two
`worker.shutdown()` calls — the second invocation is not a no-op. -/
theorem shutdown_twice_counterexample :
    (unguardedShutdown (unguardedShutdown initialShutState)).exitCalls = 2
    ∧ unguardedShutdown (unguardedShutdown initialShutState)
        ≠ unguardedShutdown initialShutState := by
  decide

/-- The modelled race never resolves later than the timeout. -/
theorem raceShutdownTimeout_time_le (T : Nat) (st : Option Nat) (ok : Bool) :
    (raceShutdownTimeout T st ok).timeMs ≤ T := by
  rcases st with _ | t
  · exact Nat.le_refl T
  · show (if t < T then (⟨t, ok⟩ : RaceResult) else ⟨T, false⟩).timeMs ≤ T
    by_cases hb : t < T
    · rw [if_pos hb]
      exact Nat.le_of_lt hb
    · rw [if_neg hb]

/-- When the shutdown never settles, the timeout branch resolves `false` at
the bound. -/
theorem raceShutdownTimeout_none (T : Nat) (ok : Bool) :
    raceShutdownTimeout T none ok = ⟨T, false⟩ := rfl

/-- When the shutdown settles at or after the timeout, the timeout branch
wins and resolves `false` at the bound. -/
theorem raceShutdownTimeout_late (T t : Nat) (ok : Bool)
    (hle : T ≤ t) : raceShutdownTimeout T (some t) ok = ⟨T, false⟩ := by
  show (if t < T then (⟨t, ok⟩ : RaceResult) else ⟨T, false⟩) = ⟨T, false⟩
  rw [if_neg (by omega)]

/-- When the shutdown fulfills strictly before the timeout, the race
resolves `true` at the shutdown time. -/
theorem raceShutdownTimeout_early (T t : Nat) (hlt : t < T) :
    raceShutdownTimeout T (some t) true = ⟨t, true⟩ := by
  show (if t < T then (⟨t, true⟩ : RaceResult) else ⟨T, false⟩) = ⟨t, true⟩
  rw [if_pos hlt]

/-- C6: `forceSpanExport` always resolves within its configured timeout
bound — 5000 ms in the first variant, 3000 ms in the SigNoz variant.  When
the SDK shutdown has not settled by the time the timeout fires, the timeout
branch wins the race and the function resolves `false` at exactly the bound;
when the shutdown completes successfully strictly before the timeout, the
function resolves `true`. -/
theorem forceSpanExport_timeout_bound (sp : Bool) (st : Option Nat) (ok : Bool) :
    (forceSpanExportSignoz sp st ok).timeMs ≤ 3000
    ∧ (forceSpanExportUtils sp st ok).timeMs ≤ 5000
    ∧ (sp = true → st = none →
        forceSpanExportSignoz sp st ok = ⟨3000, false⟩
        ∧ forceSpanExportUtils sp st ok = ⟨5000, false⟩)
    ∧ (∀ t, sp = true → st = some t → 3000 ≤ t →
        forceSpanExportSignoz sp st ok = ⟨3000, false⟩)
    ∧ (∀ t, sp = true → st = some t → 5000 ≤ t →
        forceSpanExportUtils sp st ok = ⟨5000, false⟩)
    ∧ (∀ t, sp = true → st = some t → t < 3000 → ok = true →
        (forceSpanExportSignoz sp st ok).value = true)
    ∧ (∀ t, sp = true → st = some t → t < 5000 → ok = true →
        (forceSpanExportUtils sp st ok).value = true) := by
  cases sp
  · refine ⟨Nat.zero_le _, Nat.zero_le _, ?_, ?_, ?_, ?_, ?_⟩
    · intro h
      exact Bool.noConfusion h
    all_goals intro t h
    all_goals exact Bool.noConfusion h
  · refine ⟨raceShutdownTimeout_time_le 3000 st ok,
      raceShutdownTimeout_time_le 5000 st ok, ?_, ?_, ?_, ?_, ?_⟩
    · intro _ hst
      subst hst
      exact ⟨rfl, rfl⟩
    · intro t _ hst hle
      subst hst
      exact raceShutdownTimeout_late 3000 t ok hle
    · intro t _ hst hle
      subst hst
      exact raceShutdownTimeout_late 5000 t ok hle
    · intro t _ hst hlt hok
      subst hst
      subst hok
      show (raceShutdownTimeout 3000 (some t) true).value = true
      rw [raceShutdownTimeout_early 3000 t hlt]
    · intro t _ hst hlt hok
      subst hst
      subst hok
      show (raceShutdownTimeout 5000 (some t) true).value = true
      rw [raceShutdownTimeout_early 5000 t hlt]

/-- Witness for C6: with the SDK present and a shutdown that succeeds after
100 ms, the SigNoz variant resolves `true`, and with a shutdown that never
settles it resolves `false` at exactly 3000 ms. -/
theorem forceSpanExport_timeout_bound_witness :
    (forceSpanExportSignoz true (some 100) true).value = true
    ∧ forceSpanExportSignoz true none true = ⟨3000, false⟩ :=
  ⟨(forceSpanExport_timeout_bound true (some 100) true).2.2.2.2.2.1 100 rfl rfl
      (by decide) rfl,
    ((forceSpanExport_timeout_bound true none true).2.2.1 rfl rfl).1⟩

/-- C7 (amended): with the endpoint environment variable absent, the plain
instrumentation variant and all the tracing/metrics configuration modules
default to the documented local loopback collector address
(`http://127.0.0.1:4317` or `http://localhost:4317`), but the SigNoz-cloud
instrumentation variant defaults to the remote cloud ingest endpoint
`https://ingest.in.signoz.cloud:443`, which is not a loopback address. -/
theorem default_endpoints :
    instrumentationLocalEndpoint none = "http://127.0.0.1:4317"
    ∧ tracingExporterEndpoint none = "http://localhost:4317"
    ∧ isLocalLoopbackEndpoint (instrumentationLocalEndpoint none) = true
    ∧ isLocalLoopbackEndpoint (tracingExporterEndpoint none) = true
    ∧ instrumentationSignozEndpoint none = "https://ingest.in.signoz.cloud:443"
    ∧ isLocalLoopbackEndpoint (instrumentationSignozEndpoint none) = false := by
  decide

/-- Counterexample for C7 as stated: one exporter construction path — the
SigNoz-cloud instrumentation variant — selects the remote cloud ingest
address, not the documented local loopback address, when
`OTEL_EXPORTER_OTLP_ENDPOINT` is absent. -/
theorem default_endpoint_counterexample :
    instrumentationSignozEndpoint none = "https://ingest.in.signoz.cloud:443"
    ∧ isLocalLoopbackEndpoint (instrumentationSignozEndpoint none) = false := by
  decide

end TemporalDemo
